import Mathlib

/-!
Shallow embedding of the WAV-handling core of the css10-convert-ljspeech
scripts: the chunk-walking format probes of `convert_all_ieee_formats.py`,
`investigate_all_formats.py` and `create_audio_duration_csv.py`, the
duration estimator of `create_audio_duration_csv.py`, and the
backup / convert / restore batch loop shared by
`convert_all_ieee_formats.py`, `convert_russian_wav_format.py` and
`convert_chinese_wav_format.py`.

A file's content is a list of byte values.  Python's `f.read n` at
position `p` returns `(bs.drop p).take n` (shorter near end-of-file, empty
past it) and a relative `f.seek(k, 1)` advances the position; since every
access in the loops is forward-only, each loop is modelled on the suffix of
the file that remains in front of the position.  `struct.unpack` demands an
exactly sized argument and raises `struct.error` otherwise; every exception
raised inside the source functions is caught by their enclosing
`try`/`except` and turned into that function's error return value, which is
how the explicit error results of the embedded functions arise.
-/

namespace Css10

/-- Little-endian unsigned value of a byte list, as `struct.unpack` computes
it on an exactly sized read (`<I` on 4 bytes, `<H` on 2 bytes). -/
def leNat (l : List Nat) : Nat := l.foldr (fun b acc => b + 256 * acc) 0

/-- ASCII bytes of the outer magic `b'RIFF'`. -/
def riffTag : List Nat := [82, 73, 70, 70]

/-- ASCII bytes of the container-type magic `b'WAVE'`. -/
def waveTag : List Nat := [87, 65, 86, 69]

/-- ASCII bytes of the format-chunk tag `b'fmt '`. -/
def fmtTag : List Nat := [102, 109, 116, 32]

/-- ASCII bytes of the data-chunk tag `b'data'`. -/
def dataTag : List Nat := [100, 97, 116, 97]

namespace ConvertAll

/-- The `while` loop of `investigate_wav_format` in
`convert_all_ieee_formats.py` (lines 23-37), acting on the bytes remaining
after the 12-byte preamble.  `chunk_id = f.read(4)` is falsy iff the suffix
is empty (`break`, so the function falls through and returns `None`); a
short read for the 4-byte size field makes `struct.unpack` raise, which the
`except` turns into `None`; on `b'fmt '` the function unpacks and returns
the 2-byte format tag (`None` again on a short read); any other chunk is
skipped by a relative seek, which may land past end-of-file, after which
every read is empty. -/
def fmtLoop (r : List Nat) : Option Nat :=
  if hr : r = [] then none
  else if h4 : ((r.drop 4).take 4).length = 4 then
    if r.take 4 = fmtTag then
      if ((r.drop 8).take 2).length = 2 then some (leNat ((r.drop 8).take 2)) else none
    else fmtLoop ((r.drop 8).drop (leNat ((r.drop 4).take 4)))
  else none
termination_by r.length
decreasing_by
  simp only [List.length_drop, List.length_take] at h4 ⊢
  omega

/-- `investigate_wav_format` of `convert_all_ieee_formats.py` (lines 13-39).
The function reads 4 bytes of `riff_header` and 4 bytes of `wave_header`
without comparing them to anything; the only preamble failure mode is a
short read for the size field, whose `struct.error` the handler converts to
`None`.  Returns the raw audio-format tag, or `None`. -/
def investigate_wav_format (bs : List Nat) : Option Nat :=
  if ((bs.drop 4).take 4).length = 4 then fmtLoop (bs.drop 12) else none

end ConvertAll

namespace InvestigateAll

/-- The dictionary of format fields returned by `investigate_wav_format` of
`investigate_all_formats.py`. -/
structure FmtInfo where
  audio_format : Nat
  num_channels : Nat
  sample_rate : Nat
  byte_rate : Nat
  block_align : Nat
  bits_per_sample : Nat
  file_size : Nat
deriving DecidableEq

/-- The three observable results of `investigate_wav_format` of
`investigate_all_formats.py`: the field dictionary, the implicit `None`
returned when the `while` loop ends (`break` on an empty read), and the
`{'error': ...}` dictionary produced when the `except` handler catches a
raised exception. -/
inductive ProbeResult where
  | found (info : FmtInfo)
  | noFmt
  | err
deriving DecidableEq

/-- The `while` loop of `investigate_wav_format` in
`investigate_all_formats.py` (lines 22-49) on the suffix after the 12-byte
preamble.  An empty `chunk_id` read breaks (implicit `None`); a short read
for the size field raises (caught, `err`); on `b'fmt '` the six fields are
unpacked with reads of 2,2,4,4,2,2 bytes, any of which raises if fewer than
16 bytes remain (so: `found` when 16 bytes remain, `err` otherwise); other
chunks are skipped by a relative seek. -/
def probeLoop (fileSize : Nat) (r : List Nat) : ProbeResult :=
  if hr : r = [] then .noFmt
  else if h4 : ((r.drop 4).take 4).length = 4 then
    if r.take 4 = fmtTag then
      if 16 ≤ (r.drop 8).length then
        .found ⟨leNat ((r.drop 8).take 2), leNat (((r.drop 8).drop 2).take 2),
                leNat (((r.drop 8).drop 4).take 4), leNat (((r.drop 8).drop 8).take 4),
                leNat (((r.drop 8).drop 12).take 2), leNat (((r.drop 8).drop 14).take 2),
                fileSize⟩
      else .err
    else probeLoop fileSize ((r.drop 8).drop (leNat ((r.drop 4).take 4)))
  else .err
termination_by r.length
decreasing_by
  simp only [List.length_drop, List.length_take] at h4 ⊢
  omega

/-- `investigate_wav_format` of `investigate_all_formats.py` (lines 12-52).
The preamble reads `riff_header` and `wave_header` without checking them;
only a short read of the size field raises (caught as the error
dictionary). -/
def investigate_wav_format (bs : List Nat) : ProbeResult :=
  if ((bs.drop 4).take 4).length = 4 then
    probeLoop (leNat ((bs.drop 4).take 4)) (bs.drop 12)
  else .err

end InvestigateAll

namespace DurationCsv

/-- The six format fields unpacked from a `b'fmt '` chunk, i.e. the local
variables `audio_format` .. `bits_per_sample` of `read_wav_header` in
`create_audio_duration_csv.py`. -/
structure WavCore where
  audio_format : Nat
  num_channels : Nat
  sample_rate : Nat
  byte_rate : Nat
  block_align : Nat
  bits_per_sample : Nat
deriving DecidableEq

/-- The dictionary returned by `read_wav_header` of
`create_audio_duration_csv.py`: the six format fields, the RIFF size field,
and the `duration` key, present only on the data-chunk return path. -/
structure WavHeader where
  audio_format : Nat
  num_channels : Nat
  sample_rate : Nat
  byte_rate : Nat
  block_align : Nat
  bits_per_sample : Nat
  file_size : Nat
  duration : Option ℚ
deriving DecidableEq

/-- The `while` loop of `read_wav_header` in `create_audio_duration_csv.py`
(lines 26-68).  `seen` models whether the fmt-chunk locals (`sample_rate`
etc.) are bound when the `b'data'` branch tests `'sample_rate' in locals()`;
the fmt branch returns immediately (with no `duration` key) instead of
recursing, so no call site ever passes `some`.  In the data branch with the
locals bound, the Python code computes
`chunk_size / (sample_rate * num_channels * (bits_per_sample // 8))`,
whose `ZeroDivisionError`, like every other exception, is caught by the
enclosing handler and turned into `None`. -/
def headerLoop (fileSize : Nat) (seen : Option WavCore) (r : List Nat) : Option WavHeader :=
  if hr : r = [] then none
  else if h4 : ((r.drop 4).take 4).length = 4 then
    if r.take 4 = fmtTag then
      if 16 ≤ (r.drop 8).length then
        some ⟨leNat ((r.drop 8).take 2), leNat (((r.drop 8).drop 2).take 2),
              leNat (((r.drop 8).drop 4).take 4), leNat (((r.drop 8).drop 8).take 4),
              leNat (((r.drop 8).drop 12).take 2), leNat (((r.drop 8).drop 14).take 2),
              fileSize, none⟩
      else none
    else if r.take 4 = dataTag then
      match seen with
      | some c =>
          if c.sample_rate * c.num_channels * (c.bits_per_sample / 8) = 0 then none
          else some ⟨c.audio_format, c.num_channels, c.sample_rate, c.byte_rate,
                     c.block_align, c.bits_per_sample, fileSize,
                     some ((leNat ((r.drop 4).take 4) : ℚ) /
                           ((c.sample_rate * c.num_channels * (c.bits_per_sample / 8) : Nat) : ℚ))⟩
      | none => headerLoop fileSize seen ((r.drop 8).drop (leNat ((r.drop 4).take 4)))
    else headerLoop fileSize seen ((r.drop 8).drop (leNat ((r.drop 4).take 4)))
  else none
termination_by r.length
decreasing_by
  all_goals simp only [List.length_drop, List.length_take] at h4 ⊢
  all_goals omega

/-- `read_wav_header` of `create_audio_duration_csv.py` (lines 13-71): the
RIFF magic is compared (mismatch returns `None` at once), the size field is
unpacked (a short read raises, caught as `None`), the WAVE magic is
compared, then the chunk loop runs with no fmt locals bound. -/
def read_wav_header (bs : List Nat) : Option WavHeader :=
  if bs.take 4 = riffTag then
    if ((bs.drop 4).take 4).length = 4 then
      if (bs.drop 8).take 4 = waveTag then
        headerLoop (leNat ((bs.drop 4).take 4)) none (bs.drop 12)
      else none
    else none
  else none

/-- `get_audio_duration` of `create_audio_duration_csv.py` (lines 73-87).
If the header dictionary carries a `duration` key it is returned; otherwise
`read_wav_header` is called a second time (same pure result) and, when it
returns a dictionary, the fallback `(file_size - 44) / byte_rate` is
computed with Python integer subtraction and true division — its
`ZeroDivisionError` is caught by the handler and becomes `None`. -/
def get_audio_duration (bs : List Nat) : Option ℚ :=
  match read_wav_header bs with
  | some h =>
      match h.duration with
      | some d => some d
      | none =>
          if h.byte_rate = 0 then none
          else some (((h.file_size : ℚ) - 44) / (h.byte_rate : ℚ))
  | none => none

end DurationCsv

namespace Orchestrator

/-- File paths.  The scripts build each per-file path (`raw/wavs/x.wav`,
`backup_.../x.wav`, `raw/wavs/x.temp.wav`) by string operations that play no
role in the claims, so paths are abstract names here. -/
abbrev Path := Nat

/-- A file on disk: its content bytes and its modification time
(`shutil.copy2` and `rename` preserve the source's mtime; a fresh write by
the external tool gets its own). -/
structure Entry where
  bytes : List Nat
  mtime : Nat
deriving DecidableEq

/-- State of the file system: which entry, if any, each path holds. -/
abbrev FS := Path → Option Entry

/-- Point update of the file system. -/
def fsWrite (fs : FS) (p : Path) (e : Option Entry) : FS :=
  fun q => if q = p then e else fs q

/-- `shutil.copy2(src, dst)`: the destination receives the source's bytes
and metadata (mtime included).  In the batch loops the source always exists
(it was globbed or written moments before); a missing source would raise and
abort the whole Python loop, a situation excluded by the theorems'
hypotheses that the processed originals exist. -/
def copy2 (fs : FS) (src dst : Path) : FS := fsWrite fs dst (fs src)

/-- `Path.unlink()`: the file disappears. -/
def unlink (fs : FS) (p : Path) : FS := fsWrite fs p none

/-- `Path.rename(dst)`: the entry moves from `src` to `dst`. -/
def rename (fs : FS) (src dst : Path) : FS :=
  fsWrite (fsWrite fs dst (fs src)) src none

/-- Result of one `convert_wav_format` invocation, i.e. of the external
`ffmpeg` subprocess, which reads the input path and writes (only) the given
output path: exit status 0 having written the output entry, or a non-zero
exit (equivalently a raised exception, both reported as failure by
`convert_wav_format`) having possibly left a leftover entry at the output
path. -/
inductive ToolResult where
  | ok (out : Entry)
  | fail (leftover : Option Entry)
deriving DecidableEq

/-- How one file's iteration of the batch loop ends: counted as a success
(the spec's Converted) or appended to `failed_files` (the spec's Failed). -/
inductive Outcome where
  | converted
  | failed
deriving DecidableEq

/-- One iteration's data: the original path `orig` (`wav_file`), its backup
path (`backup_dir / wav_file.name`), its temporary output path
(`...temp.wav`), and what the external tool does on this file. -/
structure Job where
  orig : Path
  backup : Path
  temp : Path
  tr : ToolResult
deriving DecidableEq

/-- The only paths an iteration ever writes to. -/
def Job.writes (j : Job) : List Path := [j.orig, j.backup, j.temp]

/-- The pairwise distinctness of one job's three paths (true of the scripts:
the backup lives in a separate directory and the temp name carries an extra
`.temp` suffix). -/
def jobOk (j : Job) : Prop := j.orig ≠ j.backup ∧ j.orig ≠ j.temp ∧ j.backup ≠ j.temp

instance (j : Job) : Decidable (jobOk j) := by unfold jobOk; infer_instance

/-- Two jobs touch disjoint path sets (true of the scripts: distinct stems
give distinct originals, backups and temp names). -/
def writesDisjoint (a b : Job) : Prop := ∀ p ∈ a.writes, p ∉ b.writes

instance (a b : Job) : Decidable (writesDisjoint a b) := by
  unfold writesDisjoint; infer_instance

/-- The body of the conversion loop of `convert_all_ieee_formats.py`
(lines 198-222), identical in `convert_russian_wav_format.py`
(lines 133-157) and `convert_chinese_wav_format.py` (lines 67-86):
back the original up with `copy2`; run the tool against the temp path; on
exit 0, `unlink` the original and `rename` the temp onto it and count a
success; otherwise `unlink` the temp if it exists and `copy2` the backup
back over the original, recording the failure. -/
def convertOne (fs : FS) (j : Job) : FS × Outcome :=
  let fs1 := copy2 fs j.orig j.backup
  match j.tr with
  | .ok out =>
      let fs2 := fsWrite fs1 j.temp (some out)
      let fs3 := unlink fs2 j.orig
      (rename fs3 j.temp j.orig, .converted)
  | .fail leftover =>
      let fs2 := match leftover with
        | some e => fsWrite fs1 j.temp (some e)
        | none => fs1
      let fs3 := if (fs2 j.temp).isSome then unlink fs2 j.temp else fs2
      (copy2 fs3 j.backup j.orig, .failed)

/-- The whole `for wav_file in tqdm(...)` loop, one outcome per job in
order. -/
def convertBatch (fs : FS) (jobs : List Job) : FS × List Outcome :=
  match jobs with
  | [] => (fs, [])
  | j :: rest =>
      let r1 := convertOne fs j
      let r2 := convertBatch r1.1 rest
      (r2.1, r1.2 :: r2.2)

/-- The outcome of a job depends only on the tool's exit status. -/
def outcomeOf (j : Job) : Outcome :=
  match j.tr with
  | .ok _ => .converted
  | .fail _ => .failed

/-- Probing a path as `main` of `convert_all_ieee_formats.py` does
(line 106): open the file and run `investigate_wav_format`; a missing file
makes `open` raise, which the probe's handler converts to `None`. -/
def probePath (fs : FS) (p : Path) : Option Nat :=
  match fs p with
  | some e => ConvertAll.investigate_wav_format e.bytes
  | none => none

/-- The `ieee_files` partition of `main` (lines 105-113): files whose probed
format tag is 3. -/
def ieeeFiles (fs : FS) (files : List Path) : List Path :=
  files.filter (fun p => probePath fs p == some 3)

/-- The `pcm_files` partition of `main` (lines 105-113): files whose probed
format tag is 1.  These are only counted; the conversion loop never sees
them. -/
def pcmFiles (fs : FS) (files : List Path) : List Path :=
  files.filter (fun p => probePath fs p == some 1)

/-- The jobs the conversion loop runs: one per IEEE-float file, with its
derived backup and temp paths and the tool's behaviour on it. -/
def mkJobs (files : List Path) (backupOf tempOf : Path → Path)
    (tool : Path → ToolResult) : List Job :=
  files.map (fun p => ⟨p, backupOf p, tempOf p, tool p⟩)

/-- The probe-partition-convert pipeline of `main` in
`convert_all_ieee_formats.py`: probe every file, then run the conversion
loop over the IEEE-float partition only. -/
def mainRun (fs : FS) (files : List Path) (backupOf tempOf : Path → Path)
    (tool : Path → ToolResult) : FS × List Outcome :=
  convertBatch fs (mkJobs (ieeeFiles fs files) backupOf tempOf tool)

end Orchestrator

/-! Concrete inputs used to witness or refute individual claims. -/

/-- A one-file state: path 0 holds a two-byte file. -/
def c1FS : Orchestrator.FS := fun p => if p = 0 then some ⟨[7, 7], 3⟩ else none

/-- A job whose external tool exits non-zero without leaving output. -/
def c1Job : Orchestrator.Job := ⟨0, 1, 2, Orchestrator.ToolResult.fail none⟩

/-- The first 36 bytes of a well-formed WAV: `RIFF`, size field 68, `WAVE`,
then a 16-byte `fmt ` chunk with tag 1, mono, rate 4, byte rate 8, block
align 2, 16 bits per sample. -/
def c2Head : List Nat :=
  [82, 73, 70, 70, 68, 0, 0, 0, 87, 65, 86, 69,
   102, 109, 116, 32, 16, 0, 0, 0, 1, 0, 1, 0, 4, 0, 0, 0, 8, 0, 0, 0, 2, 0, 16, 0]

/-- `c2Head` followed by a 32-byte `data` chunk: a well-formed container
whose format chunk is followed by a data chunk.  Exact duration per the
claim: `32 / (4 * 1 * (16/8)) = 4` seconds. -/
def c2Input : List Nat :=
  [82, 73, 70, 70, 68, 0, 0, 0, 87, 65, 86, 69,
   102, 109, 116, 32, 16, 0, 0, 0, 1, 0, 1, 0, 4, 0, 0, 0, 8, 0, 0, 0, 2, 0, 16, 0,
   100, 97, 116, 97, 32, 0, 0, 0,
   0, 0, 0, 0, 0, 0, 0, 0, 0, 0, 0, 0, 0, 0, 0, 0,
   0, 0, 0, 0, 0, 0, 0, 0, 0, 0, 0, 0, 0, 0, 0, 0]

/-- A one-file state for the C3 counterexample. -/
def c3FS : Orchestrator.FS := fun p => if p = 0 then some ⟨[3, 3, 3], 0⟩ else none

/-- A job whose tool exits 0 but writes garbage (`[9]` is not a canonical
WAV: probing it yields no format tag at all). -/
def c3Job : Orchestrator.Job := ⟨0, 1, 2, Orchestrator.ToolResult.ok ⟨[9], 5⟩⟩

/-- A one-file state for the C4 counterexample. -/
def c4FS : Orchestrator.FS := fun p => if p = 0 then some ⟨[1, 2], 6⟩ else none

/-- A job whose tool succeeds. -/
def c4Job : Orchestrator.Job := ⟨0, 1, 2, Orchestrator.ToolResult.ok ⟨[8, 8], 9⟩⟩

/-- Bytes of a canonical (integer-PCM, format tag 1) WAV header. -/
def c5Bytes : List Nat :=
  [82, 73, 70, 70, 22, 0, 0, 0, 87, 65, 86, 69, 102, 109, 116, 32, 16, 0, 0, 0, 1, 0]

/-- A state holding one canonical file at path 0. -/
def c5FS : Orchestrator.FS := fun p => if p = 0 then some ⟨c5Bytes, 7⟩ else none

/-- A file that starts with neither magic (`XXXX`/`YYYY`) yet carries a
syntactically complete `fmt ` chunk with format tag 3. -/
def c6Input : List Nat :=
  [88, 88, 88, 88, 0, 0, 0, 0, 89, 89, 89, 89, 102, 109, 116, 32, 16, 0, 0, 0, 3, 0]

/-- A container with valid preamble whose single chunk (`LIST`) declares a
100-byte payload although 0 bytes remain: an oversized chunk, after which a
header is expected with 0 bytes left. -/
def c7Input : List Nat :=
  [82, 73, 70, 70, 36, 0, 0, 0, 87, 65, 86, 69, 76, 73, 83, 84, 100, 0, 0, 0]

/-- A container truncated immediately after its `fmt ` chunk: no data chunk
was located. -/
def c8B : List Nat :=
  [82, 73, 70, 70, 68, 0, 0, 0, 87, 65, 86, 69,
   102, 109, 116, 32, 16, 0, 0, 0, 1, 0, 1, 0, 4, 0, 0, 0, 8, 0, 0, 0, 2, 0, 16, 0]

/-- The same container with its 32-byte `data` chunk present. -/
def c8A : List Nat :=
  [82, 73, 70, 70, 68, 0, 0, 0, 87, 65, 86, 69,
   102, 109, 116, 32, 16, 0, 0, 0, 1, 0, 1, 0, 4, 0, 0, 0, 8, 0, 0, 0, 2, 0, 16, 0,
   100, 97, 116, 97, 32, 0, 0, 0,
   0, 0, 0, 0, 0, 0, 0, 0, 0, 0, 0, 0, 0, 0, 0, 0,
   0, 0, 0, 0, 0, 0, 0, 0, 0, 0, 0, 0, 0, 0, 0, 0]

/-- A well-formed header whose parsed `sample_rate` is 0 while `byte_rate`
is 2. -/
def c9Input : List Nat :=
  [82, 73, 70, 70, 68, 0, 0, 0, 87, 65, 86, 69,
   102, 109, 116, 32, 16, 0, 0, 0, 1, 0, 1, 0, 0, 0, 0, 0, 2, 0, 0, 0, 2, 0, 16, 0]

/-- A well-formed header whose parsed `byte_rate` is 0. -/
def c9ZInput : List Nat :=
  [82, 73, 70, 70, 68, 0, 0, 0, 87, 65, 86, 69,
   102, 109, 116, 32, 16, 0, 0, 0, 1, 0, 1, 0, 4, 0, 0, 0, 0, 0, 0, 0, 2, 0, 16, 0]

/-! Helper lemmas about the chunk loops. -/

open Orchestrator

/-- A complete size-field read forces at least 8 bytes in front of the
position. -/
theorem len_take4_eq_4 {r : List Nat} (h4 : ((r.drop 4).take 4).length = 4) :
    8 ≤ r.length := by
  simp only [List.length_take, List.length_drop] at h4
  omega

/-- The loop of the IEEE-converter probe on an exhausted stream: `break`,
hence `None`. -/
theorem fmtLoop_nil : ConvertAll.fmtLoop [] = none := by
  unfold ConvertAll.fmtLoop
  rfl

/-- The loop of the IEEE-converter probe skips a non-`fmt ` chunk. -/
theorem fmtLoop_skip (r : List Nat) (h0 : r ≠ [])
    (h4 : ((r.drop 4).take 4).length = 4) (hf : r.take 4 ≠ fmtTag) :
    ConvertAll.fmtLoop r =
      ConvertAll.fmtLoop ((r.drop 8).drop (leNat ((r.drop 4).take 4))) := by
  rw [ConvertAll.fmtLoop]
  rw [dif_neg h0, dif_pos h4, if_neg hf]

/-- The loop of the format-survey probe on an exhausted stream: `break`,
hence the implicit `None`, not an error record. -/
theorem probeLoop_nil (fsz : Nat) : InvestigateAll.probeLoop fsz [] = .noFmt := by
  unfold InvestigateAll.probeLoop
  rfl

/-- The loop of the format-survey probe skips a non-`fmt ` chunk. -/
theorem probeLoop_skip (fsz : Nat) (r : List Nat) (h0 : r ≠ [])
    (h4 : ((r.drop 4).take 4).length = 4) (hf : r.take 4 ≠ fmtTag) :
    InvestigateAll.probeLoop fsz r =
      InvestigateAll.probeLoop fsz ((r.drop 8).drop (leNat ((r.drop 4).take 4))) := by
  rw [InvestigateAll.probeLoop]
  rw [dif_neg h0, dif_pos h4, if_neg hf]

/-- The loop of `read_wav_header` on an exhausted stream returns `None`. -/
theorem headerLoop_nil (fsz : Nat) (seen : Option DurationCsv.WavCore) :
    DurationCsv.headerLoop fsz seen [] = none := by
  unfold DurationCsv.headerLoop
  rfl

/-- With no fmt locals bound, the loop of `read_wav_header` skips any
non-`fmt ` chunk, the `data` chunk included. -/
theorem headerLoop_skip (fsz : Nat) (r : List Nat) (h0 : r ≠ [])
    (h4 : ((r.drop 4).take 4).length = 4) (hf : r.take 4 ≠ fmtTag) :
    DurationCsv.headerLoop fsz none r =
      DurationCsv.headerLoop fsz none ((r.drop 8).drop (leNat ((r.drop 4).take 4))) := by
  rw [DurationCsv.headerLoop]
  rw [dif_neg h0, dif_pos h4, if_neg hf]
  by_cases hd : r.take 4 = dataTag
  · rw [if_pos hd]
  · rw [if_neg hd]

/-- Dead code: since the `b'fmt '` branch of `read_wav_header` returns at
once, the loop is only ever entered with no fmt locals bound, and then no
result it produces carries a `duration` key. -/
theorem headerLoop_none_duration :
    ∀ (n : Nat) (r : List Nat), r.length ≤ n → ∀ (fsz : Nat) (h : DurationCsv.WavHeader),
      DurationCsv.headerLoop fsz none r = some h → h.duration = none := by
  intro n
  induction n with
  | zero =>
      intro r hr fsz h heq
      have hnil : r = [] := List.length_eq_zero.mp (Nat.le_zero.mp hr)
      rw [hnil, headerLoop_nil] at heq
      exact absurd heq (by simp)
  | succ n ih =>
      intro r hr fsz h heq
      by_cases h0 : r = []
      · rw [h0, headerLoop_nil] at heq
        exact absurd heq (by simp)
      · by_cases h4 : ((r.drop 4).take 4).length = 4
        · by_cases hf : r.take 4 = fmtTag
          · rw [DurationCsv.headerLoop, dif_neg h0, dif_pos h4, if_pos hf] at heq
            by_cases h16 : 16 ≤ (r.drop 8).length
            · rw [if_pos h16] at heq
              obtain rfl := Option.some.inj heq
              rfl
            · rw [if_neg h16] at heq
              exact absurd heq (by simp)
          · rw [headerLoop_skip fsz r h0 h4 hf] at heq
            refine ih _ ?_ fsz h heq
            have h8 := len_take4_eq_4 h4
            simp only [List.length_drop]
            omega
        · rw [DurationCsv.headerLoop, dif_neg h0, dif_neg h4] at heq
          exact absurd heq (by simp)

/-- Every dictionary `read_wav_header` returns lacks the `duration` key: the
exact-duration branch is unreachable. -/
theorem read_wav_header_duration_none (bs : List Nat) (h : DurationCsv.WavHeader)
    (hh : DurationCsv.read_wav_header bs = some h) : h.duration = none := by
  unfold DurationCsv.read_wav_header at hh
  by_cases h1 : bs.take 4 = riffTag
  · rw [if_pos h1] at hh
    by_cases h2 : ((bs.drop 4).take 4).length = 4
    · rw [if_pos h2] at hh
      by_cases h3 : (bs.drop 8).take 4 = waveTag
      · rw [if_pos h3] at hh
        exact headerLoop_none_duration (bs.drop 12).length _ le_rfl _ h hh
      · rw [if_neg h3] at hh; exact absurd hh (by simp)
    · rw [if_neg h2] at hh; exact absurd hh (by simp)
  · rw [if_neg h1] at hh; exact absurd hh (by simp)

/-! Helper lemmas about the conversion loop. -/

/-- The recorded outcome depends only on the tool's exit status. -/
theorem convertOne_outcome (fs : FS) (j : Job) : (convertOne fs j).2 = outcomeOf j := by
  obtain ⟨o, b, t, tr⟩ := j
  cases tr <;> rfl

/-- One iteration writes nothing outside its original, backup and temp
paths. -/
theorem convertOne_frame (fs : FS) (j : Job) (q : Path)
    (h1 : q ≠ j.orig) (h2 : q ≠ j.backup) (h3 : q ≠ j.temp) :
    (convertOne fs j).1 q = fs q := by
  obtain ⟨o, b, t, tr⟩ := j
  simp only at h1 h2 h3
  cases tr with
  | ok out =>
      simp [convertOne, copy2, unlink, rename, fsWrite, h1, h2, h3]
  | fail leftover =>
      cases leftover with
      | none =>
          simp [convertOne, copy2, unlink, rename, fsWrite, h1, h2, h3]
          split <;> split <;> simp [fsWrite, h1, h2, h3]
      | some e =>
          simp [convertOne, copy2, unlink, rename, fsWrite, h1, h2, h3]

/-- Complete characterisation of one iteration's final state, given the
job's three paths are distinct: the temp path ends removed, the backup path
holds the original's pre-iteration entry, and the original path holds the
tool's output on success and its own pre-iteration entry on failure. -/
theorem convertOne_apply (fs : FS) (j : Job) (q : Path)
    (h1 : j.orig ≠ j.backup) (h2 : j.orig ≠ j.temp) (h3 : j.backup ≠ j.temp) :
    (convertOne fs j).1 q =
      if q = j.temp then none
      else if q = j.backup then fs j.orig
      else if q = j.orig then
        (match j.tr with
         | ToolResult.ok out => some out
         | ToolResult.fail x => fs j.orig)
      else fs q := by
  obtain ⟨o, b, t, tr⟩ := j
  simp only at h1 h2 h3 ⊢
  cases tr with
  | ok out =>
      by_cases hqt : q = t <;> by_cases hqb : q = b <;> by_cases hqo : q = o <;>
        simp_all [convertOne, copy2, unlink, rename, fsWrite,
          Ne.symm h1, Ne.symm h2, Ne.symm h3]
  | fail leftover =>
      cases leftover with
      | some e =>
          by_cases hqt : q = t <;> by_cases hqb : q = b <;> by_cases hqo : q = o <;>
            simp_all [convertOne, copy2, unlink, rename, fsWrite,
              Ne.symm h1, Ne.symm h2, Ne.symm h3]
      | none =>
          rcases hft : fs t with _ | et <;>
            by_cases hqt : q = t <;> by_cases hqb : q = b <;> by_cases hqo : q = o <;>
              simp_all [convertOne, copy2, unlink, rename, fsWrite,
                Ne.symm h1, Ne.symm h2, Ne.symm h3]

/-- The batch produces one outcome per job, each fixed by its tool result
alone. -/
theorem convertBatch_outcomes (fs : FS) (jobs : List Job) :
    (convertBatch fs jobs).2 = jobs.map outcomeOf := by
  induction jobs generalizing fs with
  | nil => rfl
  | cons j rest ih =>
      simp only [convertBatch, List.map_cons]
      rw [ih, convertOne_outcome]

/-- The batch writes nothing outside the union of its jobs' paths. -/
theorem convertBatch_frame (fs : FS) (jobs : List Job) (q : Path)
    (hq : ∀ j ∈ jobs, q ∉ j.writes) :
    (convertBatch fs jobs).1 q = fs q := by
  induction jobs generalizing fs with
  | nil => rfl
  | cons j rest ih =>
      have hj := hq j (List.mem_cons_self j rest)
      simp [Job.writes] at hj
      simp only [convertBatch]
      rw [ih _ (fun x hx => hq x (List.mem_cons_of_mem j hx))]
      exact convertOne_frame fs j q hj.1 hj.2.1 hj.2.2

/-- On pairwise path-disjoint jobs, the batch's effect at any of one job's
paths is exactly that job's own iteration run from the initial state. -/
theorem convertBatch_apply (pre : List Job) :
    ∀ (fs : FS) (post : List Job) (j : Job),
      (pre ++ j :: post).Pairwise writesDisjoint →
      (∀ x ∈ pre ++ j :: post, jobOk x) →
      ∀ q ∈ j.writes,
        (convertBatch fs (pre ++ j :: post)).1 q = (convertOne fs j).1 q := by
  induction pre with
  | nil =>
      intro fs post j hp hok q hq
      rw [List.nil_append] at hp ⊢
      rw [List.pairwise_cons] at hp
      simp only [convertBatch]
      exact convertBatch_frame _ post q (fun x hx hqx => hp.1 x hx q hq hqx)
  | cons p pre ih =>
      intro fs post j hp hok q hq
      rw [List.cons_append] at hp ⊢
      rw [List.pairwise_cons] at hp
      have hjmem : j ∈ pre ++ j :: post := by simp
      have hokj := hok j (List.mem_cons_of_mem p hjmem)
      simp only [convertBatch]
      rw [ih _ post j hp.2 (fun x hx => hok x (List.mem_cons_of_mem p hx)) q hq]
      have hno : j.orig ∉ Job.writes p := by
        intro hmem
        exact hp.1 j hjmem j.orig hmem (by simp [Job.writes])
      simp [Job.writes] at hno
      have horig : (convertOne fs p).1 j.orig = fs j.orig :=
        convertOne_frame fs p j.orig hno.1 hno.2.1 hno.2.2
      rw [convertOne_apply _ _ _ hokj.1 hokj.2.1 hokj.2.2,
          convertOne_apply _ _ _ hokj.1 hokj.2.1 hokj.2.2, horig]
      simp only [Job.writes, List.mem_cons, List.not_mem_nil, or_false] at hq
      rcases hq with rfl | rfl | rfl <;>
        simp [hokj.1, hokj.2.1, hokj.2.2, Ne.symm hokj.1, Ne.symm hokj.2.1, Ne.symm hokj.2.2]

/-! Claim theorems. -/

/-- C1: for every input file whose conversion ends with a Failed outcome
(the external tool exits non-zero), after the batch loop finishes the
file's entry at its original path is identical to its entry before the run
(bytes and metadata: the backup made by `shutil.copy2` is copied back over
the original), the temporary output is gone, and the recorded outcome at
that file's position is Failed. -/
theorem C1_failed_restores_original (fs : FS) (pre post : List Job) (j : Job)
    (hp : (pre ++ j :: post).Pairwise writesDisjoint)
    (hok : ∀ x ∈ pre ++ j :: post, jobOk x)
    (x : Option Entry) (htr : j.tr = ToolResult.fail x)
    (e : Entry) (he : fs j.orig = some e) :
    (convertBatch fs (pre ++ j :: post)).1 j.orig = some e ∧
    (convertBatch fs (pre ++ j :: post)).1 j.temp = none ∧
    (convertBatch fs (pre ++ j :: post)).2[pre.length]? = some Outcome.failed := by
  have hokj : jobOk j := hok j (by simp)
  refine ⟨?_, ?_, ?_⟩
  · rw [convertBatch_apply pre fs post j hp hok j.orig (by simp [Job.writes])]
    rw [convertOne_apply _ _ _ hokj.1 hokj.2.1 hokj.2.2, htr]
    simp [hokj.1, hokj.2.1, he]
  · rw [convertBatch_apply pre fs post j hp hok j.temp (by simp [Job.writes])]
    rw [convertOne_apply _ _ _ hokj.1 hokj.2.1 hokj.2.2]
    simp
  · rw [convertBatch_outcomes, List.map_append, List.getElem?_append_right (by simp)]
    simp [outcomeOf, htr]

/-- C1 witness: a concrete one-job batch whose tool fails leaves path 0
bit-identical and reports Failed. -/
theorem C1_witness :
    (convertBatch c1FS [c1Job]).1 0 = some ⟨[7, 7], 3⟩ ∧
    (convertBatch c1FS [c1Job]).1 2 = none ∧
    (convertBatch c1FS [c1Job]).2[0]? = some Outcome.failed :=
  C1_failed_restores_original c1FS [] [] c1Job (by simp) (by decide) none rfl ⟨[7, 7], 3⟩ rfl

/-- C2: the claim says the probe returns the exact duration
`data_chunk_len / (sample_rate * channel_count * (bits_per_sample / 8))`
whenever a data chunk is present.  On `c2Input` — a well-formed container
whose `fmt ` chunk is followed by a `data` chunk of 32 bytes, with rate 4,
mono, 16 bits — that exact value is 4, but the code returns the fallback
`(size_field - 44) / byte_rate = 3`: `read_wav_header` returns from its
`b'fmt '` branch before the data chunk is reached, so the exact-duration
branch (guarded by `'sample_rate' in locals()`) is dead code. -/
theorem C2_dead_exact_path_eval :
    c2Input = c2Head ++ dataTag ++ [32, 0, 0, 0] ++ List.replicate 32 0 ∧
    DurationCsv.get_audio_duration c2Input = some 3 ∧
    (3 : ℚ) ≠ (32 : ℚ) / ((4 * 1 * (16 / 8) : ℕ) : ℚ) := by
  refine ⟨by decide, ?_, by norm_num⟩
  have h : DurationCsv.read_wav_header c2Input = some ⟨1, 1, 4, 8, 2, 16, 68, none⟩ := by
    simp [c2Input, DurationCsv.read_wav_header, DurationCsv.headerLoop,
      riffTag, waveTag, fmtTag, leNat]
  rw [DurationCsv.get_audio_duration, h]
  norm_num

/-- C3 counterexample: a tool invocation that reports success with output
`[9]` — which no probe classifies as canonical (probing it yields no format
tag) — still gets swapped onto the original path and recorded as Converted:
the exit status alone is sufficient, no re-probe gates the swap. -/
theorem C3_counterexample :
    (convertBatch c3FS [c3Job]).1 0 = some ⟨[9], 5⟩ ∧
    ConvertAll.investigate_wav_format [9] ≠ some 1 ∧
    (convertBatch c3FS [c3Job]).2 = [Outcome.converted] := by
  refine ⟨by decide, by decide, by decide⟩

/-- C3 amended: whenever the external tool exits 0, the orchestrator
removes the original and renames the temporary output into place
unconditionally — no re-probe of the output is performed before the swap
(verification happens only afterwards, on a five-file sample, and gates
nothing). -/
theorem C3_swap_unconditional (fs : FS) (pre post : List Job) (j : Job)
    (hp : (pre ++ j :: post).Pairwise writesDisjoint)
    (hok : ∀ x ∈ pre ++ j :: post, jobOk x)
    (out : Entry) (htr : j.tr = ToolResult.ok out) :
    (convertBatch fs (pre ++ j :: post)).1 j.orig = some out ∧
    (convertBatch fs (pre ++ j :: post)).2[pre.length]? = some Outcome.converted := by
  have hokj : jobOk j := hok j (by simp)
  refine ⟨?_, ?_⟩
  · rw [convertBatch_apply pre fs post j hp hok j.orig (by simp [Job.writes])]
    rw [convertOne_apply _ _ _ hokj.1 hokj.2.1 hokj.2.2, htr]
    simp [hokj.1, hokj.2.1]
  · rw [convertBatch_outcomes, List.map_append, List.getElem?_append_right (by simp)]
    simp [outcomeOf, htr]

/-- C3 witness: the amended statement at the concrete counterexample
batch. -/
theorem C3_witness :
    (convertBatch c3FS [c3Job]).1 0 = some ⟨[9], 5⟩ ∧
    (convertBatch c3FS [c3Job]).2[0]? = some Outcome.converted :=
  C3_swap_unconditional c3FS [] [] c3Job (by simp) (by decide) ⟨[9], 5⟩ rfl

/-- C4 counterexample: a file whose outcome is Converted still has its
backup copy on disk after the batch — the backup is not deleted, refuting
the claimed "released if and only if Converted or Unchanged". -/
theorem C4_counterexample :
    (convertBatch c4FS [c4Job]).2 = [Outcome.converted] ∧
    (convertBatch c4FS [c4Job]).1 1 = some ⟨[1, 2], 6⟩ := by
  refine ⟨by decide, by decide⟩

/-- C4 amended: the scripts never release (delete) a backup: for every
processed file, whatever the outcome, the backup path still holds the
original's pre-run entry after the batch finishes; failures restore from
that copy, and canonical files never enter the loop at all, so no backup of
them exists either. -/
theorem C4_backup_never_released (fs : FS) (pre post : List Job) (j : Job)
    (hp : (pre ++ j :: post).Pairwise writesDisjoint)
    (hok : ∀ x ∈ pre ++ j :: post, jobOk x)
    (e : Entry) (he : fs j.orig = some e) :
    (convertBatch fs (pre ++ j :: post)).1 j.backup = some e := by
  have hokj : jobOk j := hok j (by simp)
  rw [convertBatch_apply pre fs post j hp hok j.backup (by simp [Job.writes])]
  rw [convertOne_apply _ _ _ hokj.1 hokj.2.1 hokj.2.2]
  simp [Ne.symm hokj.1, hokj.2.2, he]

/-- C4 witness: after a successful conversion the backup is still there. -/
theorem C4_witness : (convertBatch c4FS [c4Job]).1 1 = some ⟨[1, 2], 6⟩ :=
  C4_backup_never_released c4FS [] [] c4Job (by simp) (by decide) ⟨[1, 2], 6⟩ rfl

/-- C5: a file probed as canonical (integer PCM, format tag 1) is placed in
the PCM partition, is excluded from the conversion jobs, and — provided no
other file's backup or temp path collides with it — its entry (bytes and
modification time) after `main`'s conversion run is exactly its entry
before: zero writes touch it. -/
theorem C5_canonical_untouched (fs : FS) (files : List Path)
    (backupOf tempOf : Path → Path) (tool : Path → ToolResult) (p : Path)
    (hpcm : probePath fs p = some 1)
    (hb : ∀ q ∈ ieeeFiles fs files, p ≠ backupOf q ∧ p ≠ tempOf q) :
    (mainRun fs files backupOf tempOf tool).1 p = fs p ∧
    p ∉ ieeeFiles fs files ∧
    (p ∈ files → p ∈ pcmFiles fs files) := by
  have hni : p ∉ ieeeFiles fs files := by
    simp [ieeeFiles, List.mem_filter, hpcm]
  refine ⟨?_, hni, fun hpf => ?_⟩
  · unfold mainRun mkJobs
    apply convertBatch_frame
    intro j hj
    simp only [List.mem_map] at hj
    obtain ⟨q, hq, rfl⟩ := hj
    have hbq := hb q hq
    have hpq : p ≠ q := fun hcontra => hni (hcontra ▸ hq)
    simp [Job.writes]
    exact ⟨hpq, hbq.1, hbq.2⟩
  · simp [pcmFiles, List.mem_filter, hpf, hpcm]

/-- C5 witness: a concrete canonical file at path 0 is classified PCM and
left untouched by a run whose tool would fail everything. -/
theorem C5_witness :
    (mainRun c5FS [0] (fun p => p + 100) (fun p => p + 200)
        (fun _ => ToolResult.fail none)).1 0 = c5FS 0 ∧
    (0 : Path) ∉ ieeeFiles c5FS [0] ∧
    ((0 : Path) ∈ [(0 : Path)] → (0 : Path) ∈ pcmFiles c5FS [0]) := by
  have hpcm : probePath c5FS 0 = some 1 := by
    simp [probePath, c5FS, ConvertAll.investigate_wav_format, ConvertAll.fmtLoop,
      c5Bytes, fmtTag, leNat]
  have hie : ieeeFiles c5FS [0] = [] := by
    simp [ieeeFiles, hpcm]
  exact C5_canonical_untouched c5FS [0] _ _ _ 0 hpcm
    (by rw [hie]; intro q hq; cases hq)

/-- C6 counterexample: `investigate_wav_format` of
`convert_all_ieee_formats.py` reads both magic fields without comparing
them: on `c6Input`, whose first four bytes are not `RIFF` and whose bytes
8..11 are not `WAVE`, probing does not fail — it returns format tag 3, a
partial result for a non-container. -/
theorem C6_counterexample :
    ConvertAll.investigate_wav_format c6Input = some 3 ∧
    c6Input.take 4 ≠ riffTag ∧ (c6Input.drop 8).take 4 ≠ waveTag := by
  refine ⟨?_, by decide, by decide⟩
  simp [c6Input, ConvertAll.investigate_wav_format, ConvertAll.fmtLoop, fmtTag, leNat]

/-- C6 amended: only `read_wav_header` of `create_audio_duration_csv.py`
checks the magics: a mismatch on either the `RIFF` or the `WAVE` magic
makes it return `None` immediately, with no partial result; the converter's
probe performs no such check and can return a format tag for the same
bytes. -/
theorem C6_header_magic_rejected (bs : List Nat)
    (h : bs.take 4 ≠ riffTag ∨ (bs.drop 8).take 4 ≠ waveTag) :
    DurationCsv.read_wav_header bs = none := by
  unfold DurationCsv.read_wav_header
  rcases h with h | h
  · rw [if_neg h]
  · by_cases h1 : bs.take 4 = riffTag
    · rw [if_pos h1]
      by_cases h2 : ((bs.drop 4).take 4).length = 4
      · rw [if_pos h2, if_neg h]
      · rw [if_neg h2]
    · rw [if_neg h1]

/-- C6 witness: the amended statement at the counterexample's bytes. -/
theorem C6_witness : DurationCsv.read_wav_header c6Input = none :=
  C6_header_magic_rejected c6Input (Or.inl (by decide))

/-- C7 counterexample: on `c7Input` the single chunk declares a 100-byte
payload with 0 bytes remaining (`oversized`), and after the seek a header
is expected with 0 bytes left (`truncated`); the reader of
`investigate_all_formats.py` reports no error for either — it ends the walk
with the silent no-format result, not the error record. -/
theorem C7_counterexample :
    InvestigateAll.investigate_wav_format c7Input = InvestigateAll.ProbeResult.noFmt ∧
    InvestigateAll.ProbeResult.noFmt ≠ InvestigateAll.ProbeResult.err ∧
    (c7Input.drop 20).length < leNat ((c7Input.drop 16).take 4) := by
  refine ⟨?_, by decide, by decide⟩
  simp [c7Input, InvestigateAll.investigate_wav_format, InvestigateAll.probeLoop,
    fmtTag, leNat]

/-- C7 amended: if between 1 and 7 bytes remain where a chunk header is
expected, the raised `struct.error` is caught and reported as the error
record; but if exactly 0 bytes remain the walk ends silently with the
no-format result, and a declared payload length pointing past end-of-file
is silently tolerated as well — the seek lands past the end and the walk
ends at the next empty read, again with no error. -/
theorem C7_truncation_behavior :
    (∀ (fsz : Nat) (t : List Nat), t ≠ [] → t.length < 8 →
        InvestigateAll.probeLoop fsz t = InvestigateAll.ProbeResult.err) ∧
    (∀ fsz : Nat, InvestigateAll.probeLoop fsz [] = InvestigateAll.ProbeResult.noFmt) ∧
    (∀ (fsz a b c d s1 s2 s3 s4 : Nat) (rest : List Nat),
        [a, b, c, d] ≠ fmtTag → rest.length < leNat [s1, s2, s3, s4] →
        InvestigateAll.probeLoop fsz
            (a :: b :: c :: d :: s1 :: s2 :: s3 :: s4 :: rest) =
          InvestigateAll.ProbeResult.noFmt) := by
  refine ⟨?_, probeLoop_nil, ?_⟩
  · intro fsz t h0 hlen
    have h4 : ¬((t.drop 4).take 4).length = 4 := by
      simp only [List.length_take, List.length_drop]
      omega
    rw [InvestigateAll.probeLoop, dif_neg h0, dif_neg h4]
  · intro fsz a b c d s1 s2 s3 s4 rest hne hlt
    have h0 : (a :: b :: c :: d :: s1 :: s2 :: s3 :: s4 :: rest) ≠ [] := by simp
    have h4 : (((a :: b :: c :: d :: s1 :: s2 :: s3 :: s4 :: rest).drop 4).take 4).length
        = 4 := rfl
    have hf : (a :: b :: c :: d :: s1 :: s2 :: s3 :: s4 :: rest).take 4 ≠ fmtTag := hne
    rw [probeLoop_skip fsz _ h0 h4 hf]
    show InvestigateAll.probeLoop fsz (rest.drop (leNat [s1, s2, s3, s4])) =
      InvestigateAll.ProbeResult.noFmt
    rw [List.drop_eq_nil_of_le (Nat.le_of_lt hlt), probeLoop_nil]

/-- C7 witness: the amended statement at concrete streams — a 1-byte
remainder yields the error record, an empty remainder and an oversized
declared length both end silently. -/
theorem C7_witness :
    InvestigateAll.probeLoop 0 [1] = InvestigateAll.ProbeResult.err ∧
    InvestigateAll.probeLoop 0 [] = InvestigateAll.ProbeResult.noFmt ∧
    InvestigateAll.probeLoop 0 (76 :: 73 :: 83 :: 84 :: 100 :: 0 :: 0 :: 0 :: []) =
      InvestigateAll.ProbeResult.noFmt :=
  ⟨C7_truncation_behavior.1 0 [1] (by decide) (by decide),
   C7_truncation_behavior.2.1 0,
   C7_truncation_behavior.2.2 0 76 73 83 84 100 0 0 0 [] (by decide) (by decide)⟩

/-- C8 counterexample: the estimator does not flag the fallback as
approximate via a distinguishable result.  `c8A` is a well-formed container
with a located data chunk, `c8B` the same container truncated before the
data chunk; `get_audio_duration` returns the very same plain value
`some 3` for both — the exact case and the fallback case are
indistinguishable (indeed both take the fallback path). -/
theorem C8_counterexample :
    c8A = c8B ++ dataTag ++ [32, 0, 0, 0] ++ List.replicate 32 0 ∧
    DurationCsv.get_audio_duration c8A = some 3 ∧
    DurationCsv.get_audio_duration c8B = some 3 := by
  refine ⟨by decide, ?_, ?_⟩
  · have h : DurationCsv.read_wav_header c8A = some ⟨1, 1, 4, 8, 2, 16, 68, none⟩ := by
      simp [c8A, DurationCsv.read_wav_header, DurationCsv.headerLoop,
        riffTag, waveTag, fmtTag, leNat]
    rw [DurationCsv.get_audio_duration, h]
    norm_num
  · have h : DurationCsv.read_wav_header c8B = some ⟨1, 1, 4, 8, 2, 16, 68, none⟩ := by
      simp [c8B, DurationCsv.read_wav_header, DurationCsv.headerLoop,
        riffTag, waveTag, fmtTag, leNat]
    rw [DurationCsv.get_audio_duration, h]
    norm_num

/-- C8 amended: whenever `read_wav_header` parses a header (data chunk
located or not) and `byte_rate` is non-zero, `get_audio_duration` returns
the fallback `(size_field - 44) / byte_rate` as a plain number — never
`None`, and with no marker distinguishing it from an exact result, the
exact path being unreachable. -/
theorem C8_fallback_plain_value (bs : List Nat) (h : DurationCsv.WavHeader)
    (hh : DurationCsv.read_wav_header bs = some h) (hbr : h.byte_rate ≠ 0) :
    DurationCsv.get_audio_duration bs =
      some (((h.file_size : ℚ) - 44) / (h.byte_rate : ℚ)) := by
  have hd := read_wav_header_duration_none bs h hh
  rw [DurationCsv.get_audio_duration, hh]
  simp [hd, hbr]

/-- C8 witness: the amended statement at the truncated container. -/
theorem C8_witness :
    DurationCsv.get_audio_duration c8B =
      some ((((68 : ℕ) : ℚ) - 44) / ((8 : ℕ) : ℚ)) := by
  have hh : DurationCsv.read_wav_header c8B = some ⟨1, 1, 4, 8, 2, 16, 68, none⟩ := by
    simp [c8B, DurationCsv.read_wav_header, DurationCsv.headerLoop,
      riffTag, waveTag, fmtTag, leNat]
  exact C8_fallback_plain_value c8B _ hh (by decide)

/-- C9 counterexample: on `c9Input` the parsed format has `sample_rate = 0`
(and `byte_rate = 2`), yet `get_audio_duration` returns `some 12`, not
`None`: the zero-guard the claim describes does not exist — zero
`sample_rate`, `num_channels` or `bits_per_sample` never reaches a division
because the exact path is dead, and the fallback divides by `byte_rate`
alone. -/
theorem C9_counterexample :
    DurationCsv.read_wav_header c9Input = some ⟨1, 1, 0, 2, 2, 16, 68, none⟩ ∧
    DurationCsv.get_audio_duration c9Input = some 12 := by
  have hh : DurationCsv.read_wav_header c9Input = some ⟨1, 1, 0, 2, 2, 16, 68, none⟩ := by
    simp [c9Input, DurationCsv.read_wav_header, DurationCsv.headerLoop,
      riffTag, waveTag, fmtTag, leNat]
  refine ⟨hh, ?_⟩
  rw [DurationCsv.get_audio_duration, hh]
  norm_num

/-- C9 amended: the only division-by-zero the computation can reach is the
fallback's division by `byte_rate`; when the parsed `byte_rate` is zero the
raised `ZeroDivisionError` is caught and `get_audio_duration` returns
`None` instead of propagating it (the function is total), while zero
`sample_rate`, `channel_count` or `bits_per_sample` values do not trigger
any guard. -/
theorem C9_zero_byte_rate_none (bs : List Nat) (h : DurationCsv.WavHeader)
    (hh : DurationCsv.read_wav_header bs = some h) (hbr : h.byte_rate = 0) :
    DurationCsv.get_audio_duration bs = none := by
  have hd := read_wav_header_duration_none bs h hh
  rw [DurationCsv.get_audio_duration, hh]
  simp [hd, hbr]

/-- C9 witness: the amended statement at a concrete header with
`byte_rate = 0`. -/
theorem C9_witness : DurationCsv.get_audio_duration c9ZInput = none := by
  have hh : DurationCsv.read_wav_header c9ZInput = some ⟨1, 1, 4, 0, 2, 16, 68, none⟩ := by
    simp [c9ZInput, DurationCsv.read_wav_header, DurationCsv.headerLoop,
      riffTag, waveTag, fmtTag, leNat]
  exact C9_zero_byte_rate_none c9ZInput _ hh rfl

/-- C10: the chunk-walking probe of `convert_all_ieee_formats.py` is a
total function on byte lists (it is defined below by well-founded recursion
on the remaining length, mirroring the loop's strictly forward reads), and
no exception escapes it: a truncated preamble and a short read at a chunk
header boundary are converted by the enclosing handler to the `None`
result, and a declared chunk size pointing past end-of-file makes the seek
land past the end, so the walk ends at the next (empty) read. -/
theorem C10_probe_error_handling :
    (∀ bs : List Nat, bs.length < 8 → ConvertAll.investigate_wav_format bs = none) ∧
    (∀ t : List Nat, t ≠ [] → t.length < 8 → ConvertAll.fmtLoop t = none) ∧
    (∀ (a b c d s1 s2 s3 s4 : Nat) (rest : List Nat),
        [a, b, c, d] ≠ fmtTag → rest.length < leNat [s1, s2, s3, s4] →
        ConvertAll.fmtLoop (a :: b :: c :: d :: s1 :: s2 :: s3 :: s4 :: rest) = none) := by
  refine ⟨?_, ?_, ?_⟩
  · intro bs hlen
    have h4 : ¬((bs.drop 4).take 4).length = 4 := by
      simp only [List.length_take, List.length_drop]
      omega
    rw [ConvertAll.investigate_wav_format, if_neg h4]
  · intro t h0 hlen
    have h4 : ¬((t.drop 4).take 4).length = 4 := by
      simp only [List.length_take, List.length_drop]
      omega
    rw [ConvertAll.fmtLoop, dif_neg h0, dif_neg h4]
  · intro a b c d s1 s2 s3 s4 rest hne hlt
    have h0 : (a :: b :: c :: d :: s1 :: s2 :: s3 :: s4 :: rest) ≠ [] := by simp
    have h4 : (((a :: b :: c :: d :: s1 :: s2 :: s3 :: s4 :: rest).drop 4).take 4).length
        = 4 := rfl
    have hf : (a :: b :: c :: d :: s1 :: s2 :: s3 :: s4 :: rest).take 4 ≠ fmtTag := hne
    rw [fmtLoop_skip _ h0 h4 hf]
    show ConvertAll.fmtLoop (rest.drop (leNat [s1, s2, s3, s4])) = none
    rw [List.drop_eq_nil_of_le (Nat.le_of_lt hlt), fmtLoop_nil]

/-- C10 witness: the three behaviours at concrete inputs. -/
theorem C10_witness :
    ConvertAll.investigate_wav_format [82] = none ∧
    ConvertAll.fmtLoop [1] = none ∧
    ConvertAll.fmtLoop (76 :: 73 :: 83 :: 84 :: 100 :: 0 :: 0 :: 0 :: []) = none :=
  ⟨C10_probe_error_handling.1 [82] (by decide),
   C10_probe_error_handling.2.1 [1] (by decide) (by decide),
   C10_probe_error_handling.2.2 76 73 83 84 100 0 0 0 [] (by decide) (by decide)⟩

end Css10
